import Mathlib

/-!
# NESZ: the 6502 core (`src/core/CPU.cpp`)

A shallow embedding of the register and flag state, the fetch helpers, the
addressing-mode resolver, the opcode dispatch and the load/store handlers of
`CPU.cpp`, followed by theorems about them.

Machine integers are natural numbers; every narrowing that C++ performs on an
assignment or on a parameter of type `Byte` or `Word` is an explicit reduction
modulo `2^8` or `2^16`.
-/

namespace core

/-! ## Types (`core/Types.hpp`) -/

/-- Modelled from the spec: `Byte` is declared in `core/Types.hpp`, which is not among the
sources; the registers `A`, `X`, `Y`, `SP`, `P` are 8-bit, so a conversion to `Byte` keeps the
low eight bits. -/
def toByte (n : Nat) : Nat := n % 256

/-- Modelled from the spec: `Word` is declared in `core/Types.hpp`, which is not among the
sources; the program counter and addresses are 16-bit, so a conversion to `Word` keeps the low
sixteen bits. -/
def toWord (n : Nat) : Nat := n % 65536

/-- Modelled from the spec: the enumeration `Flag` is declared in `core/CPU.hpp`, which is not
among the sources. The named flags are Carry, Zero, InterruptDisable, Decimal, Break, Overflow
and Negative. -/
inductive Flag where
  | C | Z | I | D | B | V | N
  deriving DecidableEq, Repr

/-- Modelled from the spec: the enumerator values of `Flag` (absent `core/CPU.hpp`). Each flag is
one bit of the packed flag byte, in the 6502 order: C bit 0, Z bit 1, I bit 2, D bit 3, B bit 4,
the unused bit 5, V bit 6, N bit 7. -/
def Flag.mask : Flag → Nat
  | .C => 1 <<< 0
  | .Z => 1 <<< 1
  | .I => 1 <<< 2
  | .D => 1 <<< 3
  | .B => 1 <<< 4
  | .V => 1 <<< 6
  | .N => 1 <<< 7

/-- Modelled from the spec: the mask of the always-set unused bit of the flag byte (bit 5). -/
def unusedMask : Nat := 1 <<< 5

/-- Modelled from the spec: the enumeration `Mode` is declared in `core/CPU.hpp`, which is not
among the sources. The tags are the twelve addressing modes of the spec; `getAddr` names ten of
them. -/
inductive Mode where
  | IMP | IMM | ZP0 | ZPX | ZPY | REL | ABS | ABX | ABY | IND | IZX | IZY
  deriving DecidableEq, Repr

/-! ## Utils (`core/Utils.hpp` declares them, the bodies are not among the sources) -/

namespace Utils

/-- Modelled from the spec: `Utils::lowByte(Word data)`, the low eight bits of a word. -/
def lowByte (data : Nat) : Nat := toWord data &&& 0xFF

/-- Modelled from the spec: `Utils::highByte(Word data)`, the page part of a word, kept in
place (bits 8 to 15), so that `highByte(i) | lowByte(i + 1)` is an address on the page of `i`. -/
def highByte (data : Nat) : Nat := toWord data &&& 0xFF00

/-- Modelled from the spec: `Utils::offset(Word base, Byte offset)`, the 16-bit sum of a base
address and an index. -/
def offset (base off : Nat) : Nat := toWord (toWord base + toByte off)

/-- Modelled from the spec: `Utils::cross(Word base, Byte offset)`; two 16-bit addresses are on
different pages iff their high bytes differ. -/
def cross (base off : Nat) : Bool := highByte (offset base off) != highByte base

end Utils

/-! ## Bus (external collaborator, not among the sources) -/

/-- Modelled from the spec: the bus the CPU drives. The test reaches `bus.ram` and `bus.cycles`;
the memory is a map from addresses to bytes and `cycles` is the tick counter. -/
structure Bus where
  ram : Nat → Nat
  cycles : Nat

namespace Bus

/-- Modelled from the spec: `readByte(address: 16-bit) -> byte`, a read with no side effect on
RAM. -/
def readByte (bus : Bus) (addr : Nat) : Nat := toByte (bus.ram (toWord addr))

/-- Modelled from the spec: `writeByte(address: 16-bit, value: byte)` stores the byte. -/
def writeByte (bus : Bus) (addr value : Nat) : Bus :=
  { bus with ram := fun a => if a = toWord addr then toByte value else bus.ram a }

/-- Modelled from the spec: `tick()` advances the cycle counter by one. -/
def tick (bus : Bus) : Bus := { bus with cycles := bus.cycles + 1 }

/-- Modelled from the spec: `readNoncontinuousWord(lo, hi)` reads the low byte of a word at
address `lo` and its high byte at address `hi`. -/
def readNoncontinuousWord (bus : Bus) (lo hi : Nat) : Nat :=
  toWord (bus.readByte lo ||| (bus.readByte hi <<< 8))

end Bus

/-! ## CPU (`src/core/CPU.cpp`) -/

/-- The registers of `CPU` with the bus it owns. -/
structure CPU where
  pc : Nat
  sp : Nat
  a : Nat
  x : Nat
  y : Nat
  p : Nat
  bus : Bus

namespace CPU

/-- `CPU::CPU()`: `pc = sp = a = x = y = p = 0`; the bus member is whatever it is constructed
as. -/
def new (bus : Bus) : CPU :=
  { pc := 0, sp := 0, a := 0, x := 0, y := 0, p := 0, bus := bus }

/-- `CPU::getFlag`: `return p & (flag != 0);` -/
def getFlag (cpu : CPU) (flag : Flag) : Bool :=
  (cpu.p &&& (flag.mask != 0).toNat) != 0

/-- `CPU::setFlag`: `if (value) p |= flag; else p &= !flag;` -/
def setFlag (cpu : CPU) (flag : Flag) (value : Bool) : CPU :=
  if value then
    { cpu with p := toByte (cpu.p ||| flag.mask) }
  else
    { cpu with p := toByte (cpu.p &&& (!(flag.mask != 0)).toNat) }

/-- `CPU::setFlagsZeroNegative(Byte value)`. -/
def setFlagsZeroNegative (cpu : CPU) (value : Nat) : CPU :=
  let value := toByte value
  let cpu := cpu.setFlag Flag.Z (value == 0)
  cpu.setFlag Flag.N ((value &&& (1 <<< 7)) != 0)

/-- `CPU::setFlagsCarryOverflow(Byte m, Byte n, Word value)`. -/
def setFlagsCarryOverflow (cpu : CPU) (m n value : Nat) : CPU :=
  let m := toByte m
  let n := toByte n
  let value := toWord value
  let cpu := cpu.setFlag Flag.C (decide (value > 0xFF))
  cpu.setFlag Flag.V (((m ^^^ value) &&& (n ^^^ value) &&& ((0x80 : Nat) != 0).toNat) != 0)

/-- `CPU::carry`: `return p & C;` -/
def carry (cpu : CPU) : Nat := toByte (cpu.p &&& Flag.C.mask)

/-- `CPU::nextByte`: `Byte data = pc; pc++; return bus.readByte(data);` -/
def nextByte (cpu : CPU) : Nat × CPU :=
  let data := toByte cpu.pc
  let cpu := { cpu with pc := toWord (cpu.pc + 1) }
  (cpu.bus.readByte data, cpu)

/-- `CPU::nextWord`: `Byte data = pc; pc += 2; return bus.readByte(data);` -/
def nextWord (cpu : CPU) : Nat × CPU :=
  let data := toByte cpu.pc
  let cpu := { cpu with pc := toWord (cpu.pc + 2) }
  (toWord (cpu.bus.readByte data), cpu)

/-- `CPU::getAddr(Mode mode)`; the `default` branch throws. -/
def getAddr (cpu : CPU) (mode : Mode) : Except String (Nat × CPU) :=
  match mode with
  | .ZP0 =>
    let (b, cpu) := cpu.nextByte
    .ok (toWord b, cpu)
  | .ZPX =>
    let cpu := { cpu with bus := cpu.bus.tick }
    let (b, cpu) := cpu.nextByte
    .ok (toWord (Utils.lowByte (Utils.offset b cpu.x)), cpu)
  | .ZPY =>
    let cpu := { cpu with bus := cpu.bus.tick }
    let (b, cpu) := cpu.nextByte
    .ok (toWord (Utils.lowByte (Utils.offset b cpu.y)), cpu)
  | .ABS =>
    let (w, cpu) := cpu.nextWord
    .ok (toWord w, cpu)
  | .ABX =>
    let (data, cpu) := cpu.nextWord
    let cpu := if Utils.cross data cpu.x then { cpu with bus := cpu.bus.tick } else cpu
    .ok (toWord (Utils.offset data cpu.x), cpu)
  | .ABY =>
    let (data, cpu) := cpu.nextWord
    let cpu := if Utils.cross data cpu.y then { cpu with bus := cpu.bus.tick } else cpu
    .ok (toWord (Utils.offset data cpu.y), cpu)
  | .IND =>
    let (i, cpu) := cpu.nextWord
    .ok (toWord (cpu.bus.readNoncontinuousWord i (Utils.highByte i ||| Utils.lowByte (i + 1))), cpu)
  | .IZX =>
    let cpu := { cpu with bus := cpu.bus.tick }
    let (b, cpu) := cpu.nextByte
    let i := Utils.offset b cpu.x
    .ok (toWord (cpu.bus.readNoncontinuousWord i (Utils.lowByte i ||| Utils.lowByte (i + 1))), cpu)
  | .IZY =>
    let (i, cpu) := cpu.nextWord
    let data := cpu.bus.readNoncontinuousWord i (Utils.lowByte (i + 1))
    let cpu := if Utils.cross data cpu.y then { cpu with bus := cpu.bus.tick } else cpu
    .ok (toWord (Utils.offset data cpu.y), cpu)
  | .IMM =>
    let i := toByte cpu.pc
    let cpu := { cpu with pc := toWord (cpu.pc + 1) }
    .ok (toWord i, cpu)
  | _ => .error "No addressing mode"

/-- `CPU::LDA`: `Byte data = getAddr(mode); setFlagsZeroNegative(data); a = data;` -/
def LDA (cpu : CPU) (mode : Mode) : Except String CPU :=
  match cpu.getAddr mode with
  | .error e => .error e
  | .ok (addr, cpu) =>
    let data := toByte addr
    let cpu := cpu.setFlagsZeroNegative data
    .ok { cpu with a := data }

/-- `CPU::LDX`: `Byte data = getAddr(mode); setFlagsZeroNegative(data); x = data;` -/
def LDX (cpu : CPU) (mode : Mode) : Except String CPU :=
  match cpu.getAddr mode with
  | .error e => .error e
  | .ok (addr, cpu) =>
    let data := toByte addr
    let cpu := cpu.setFlagsZeroNegative data
    .ok { cpu with x := data }

/-- `CPU::LDY`: `Byte data = getAddr(mode); setFlagsZeroNegative(data); y = data;` -/
def LDY (cpu : CPU) (mode : Mode) : Except String CPU :=
  match cpu.getAddr mode with
  | .error e => .error e
  | .ok (addr, cpu) =>
    let data := toByte addr
    let cpu := cpu.setFlagsZeroNegative data
    .ok { cpu with y := data }

/-- `CPU::STA`: `Byte data = getAddr(mode); bus.writeByte(data, a);` -/
def STA (cpu : CPU) (mode : Mode) : Except String CPU :=
  match cpu.getAddr mode with
  | .error e => .error e
  | .ok (addr, cpu) =>
    let data := toByte addr
    .ok { cpu with bus := cpu.bus.writeByte data cpu.a }

/-- `CPU::STX`: `Byte data = getAddr(mode); bus.writeByte(data, x);` -/
def STX (cpu : CPU) (mode : Mode) : Except String CPU :=
  match cpu.getAddr mode with
  | .error e => .error e
  | .ok (addr, cpu) =>
    let data := toByte addr
    .ok { cpu with bus := cpu.bus.writeByte data cpu.x }

/-- `CPU::STY`: `Byte data = getAddr(mode); bus.writeByte(data, y);` -/
def STY (cpu : CPU) (mode : Mode) : Except String CPU :=
  match cpu.getAddr mode with
  | .error e => .error e
  | .ok (addr, cpu) =>
    let data := toByte addr
    .ok { cpu with bus := cpu.bus.writeByte data cpu.y }

/-- `CPU::runInstruction(Byte opcode)`: the switch over the opcode; `default: pc++;`. -/
def runInstruction (cpu : CPU) (opcode : Nat) : Except String CPU :=
  match toByte opcode with
  -- Load Accumulator
  | 0xa9 => cpu.LDA .IMM
  | 0xa5 => cpu.LDA .ZP0
  | 0xb5 => cpu.LDA .ZPX
  | 0xad => cpu.LDA .ABS
  | 0xbd => cpu.LDA .ABX
  | 0xb9 => cpu.LDA .ABY
  | 0xa1 => cpu.LDA .IZX
  | 0xb1 => cpu.LDA .IZY
  -- Load X Register
  | 0xa2 => cpu.LDX .IMM
  | 0xa6 => cpu.LDX .ZP0
  | 0xb6 => cpu.LDX .ZPY
  | 0xae => cpu.LDX .ABS
  | 0xbe => cpu.LDX .ABY
  -- Load Y Register
  | 0xa0 => cpu.LDY .IMM
  | 0xa4 => cpu.LDY .ZP0
  | 0xb4 => cpu.LDY .ZPX
  | 0xac => cpu.LDY .ABS
  | 0xbc => cpu.LDY .ABX
  | _ => .ok { cpu with pc := toWord (cpu.pc + 1) }

/-- `CPU::runNextInstruction`: `runInstruction(nextByte());` -/
def runNextInstruction (cpu : CPU) : Except String CPU :=
  let (opcode, cpu) := cpu.nextByte
  cpu.runInstruction opcode

end CPU

/-! ## Fixtures -/

/-- A bus as the test fixture sets it up: the listed bytes at the listed addresses, zero
elsewhere, and a cycle counter of zero. -/
def Bus.ofList (bytes : List (Nat × Nat)) : Bus :=
  { ram := fun a => (bytes.lookup a).getD 0, cycles := 0 }

/-- A CPU with the given program counter and flag byte and zeroed registers, over a given bus. -/
def CPU.start (pc p : Nat) (bus : Bus) : CPU :=
  { pc := pc, sp := 0, a := 0, x := 0, y := 0, p := p, bus := bus }

/-- The case labels of the switch in `CPU::runInstruction`. -/
def CPU.handledOpcodes : List Nat :=
  [0xa9, 0xa5, 0xb5, 0xad, 0xbd, 0xb9, 0xa1, 0xb1,
   0xa2, 0xa6, 0xb6, 0xae, 0xbe,
   0xa0, 0xa4, 0xb4, 0xac, 0xbc]

/-- The case labels of the switch in `CPU::getAddr`: the modes the resolver handles. -/
def Mode.resolved : Mode → Bool
  | .ZP0 | .ZPX | .ZPY | .ABS | .ABX | .ABY | .IND | .IZX | .IZY | .IMM => true
  | _ => false

/-- The case labels of `CPU::runInstruction` that dispatch to `LDA`. -/
def CPU.ldaOpcodes : List Nat := [0xa9, 0xa5, 0xb5, 0xad, 0xbd, 0xb9, 0xa1, 0xb1]

/-- The case labels of `CPU::runInstruction` that dispatch to `LDX`. -/
def CPU.ldxOpcodes : List Nat := [0xa2, 0xa6, 0xb6, 0xae, 0xbe]

/-- The case labels of `CPU::runInstruction` that dispatch to `LDY`. -/
def CPU.ldyOpcodes : List Nat := [0xa0, 0xa4, 0xb4, 0xac, 0xbc]

/-- Two calls of `runNextInstruction` in a row, as the test does; an error of the first call
ends the run. -/
def CPU.runTwoInstructions (cpu : CPU) : Except String CPU :=
  match cpu.runNextInstruction with
  | .error e => .error e
  | .ok cpu => cpu.runNextInstruction

/-! ## Arithmetic of bytes, words and flag masks -/

theorem Flag.mask_lt (f : Flag) : f.mask < 2 ^ 8 := by
  cases f <;> decide

theorem Flag.mask_ne_zero (f : Flag) : f.mask ≠ 0 := by
  cases f <;> decide

theorem toByte_lt (n : Nat) : toByte n < 256 :=
  Nat.mod_lt _ (by decide)

theorem toWord_lt (n : Nat) : toWord n < 65536 :=
  Nat.mod_lt _ (by decide)

theorem toByte_of_lt {n : Nat} (h : n < 256) : toByte n = n :=
  Nat.mod_eq_of_lt h

theorem toWord_of_lt {n : Nat} (h : n < 65536) : toWord n = n :=
  Nat.mod_eq_of_lt h

theorem Bus.readByte_lt (bus : Bus) (addr : Nat) : bus.readByte addr < 256 :=
  toByte_lt _

theorem toByte_toWord_readByte (bus : Bus) (addr : Nat) :
    toByte (toWord (bus.readByte addr)) = bus.readByte addr := by
  unfold Bus.readByte toByte toWord
  omega

/-- The test `value & 1 << 7` of `setFlagsZeroNegative` is the comparison `128 ≤ value` on
bytes. -/
theorem bit7_ne_zero_eq : ∀ b < 256, ((b &&& (1 <<< 7)) != 0) = decide (128 ≤ b) := by
  intro b hb
  by_cases h : 128 ≤ b
  · have h7 : b.testBit 7 = true := by
      rw [Nat.testBit_to_div_mod]
      simp only [decide_eq_true_eq]
      omega
    have hne : b &&& (1 <<< 7) ≠ 0 := by
      intro h0
      have hb7 : (b &&& (1 <<< 7)).testBit 7 = true := by
        rw [Nat.testBit_and, h7]
        decide
      rw [h0] at hb7
      simp at hb7
    simp only [h, decide_True, bne_iff_ne, ne_eq]
    exact hne
  · have h7 : b.testBit 7 = false := Nat.testBit_lt_two_pow (by omega)
    have h0 : b &&& (1 <<< 7) = 0 := by
      apply Nat.eq_of_testBit_eq
      intro i
      rw [Nat.testBit_and, Nat.zero_testBit]
      by_cases hi : i = 7
      · rw [hi, h7, Bool.false_and]
      · have : (1 <<< 7).testBit i = false := by
          rw [show (1 <<< 7) = 2 ^ 7 from rfl, Nat.testBit_two_pow]
          simp only [decide_eq_false_iff_not]
          omega
        rw [this, Bool.and_false]
    simp only [h, decide_False, h0]
    rfl

/-! ## Flags -/

theorem CPU.setFlag_true_p (cpu : CPU) (f : Flag) :
    (cpu.setFlag f true).p = toByte (cpu.p ||| f.mask) := rfl

theorem CPU.setFlag_false_p (cpu : CPU) (f : Flag) : (cpu.setFlag f false).p = 0 := by
  have hm : (!(f.mask != 0)).toNat = 0 := by cases f <;> rfl
  simp only [CPU.setFlag, Bool.false_eq_true, if_false, hm, Nat.and_zero, toByte, Nat.zero_mod]

/-- The flag byte that `setFlagsZeroNegative` leaves behind. -/
theorem CPU.setFlagsZeroNegative_p (cpu : CPU) (value : Nat) :
    (cpu.setFlagsZeroNegative value).p = if 128 ≤ toByte value then Flag.N.mask else 0 := by
  have hb : toByte value < 256 := toByte_lt _
  simp only [CPU.setFlagsZeroNegative, bit7_ne_zero_eq _ hb]
  generalize toByte value = b at *
  by_cases h : 128 ≤ b
  · have hz : (b == 0) = false := by
      simp only [beq_eq_false_iff_ne]; omega
    simp only [h, hz, decide_True, if_true, CPU.setFlag_true_p, CPU.setFlag_false_p]
    rfl
  · simp only [h, decide_False, if_false, CPU.setFlag_false_p]

theorem CPU.setFlagsZeroNegative_N_bit (cpu : CPU) (b : Nat) (hb : b < 256) :
    ((cpu.setFlagsZeroNegative b).p &&& Flag.N.mask ≠ 0) ↔ 128 ≤ b := by
  rw [CPU.setFlagsZeroNegative_p, toByte_of_lt hb]
  by_cases h : 128 ≤ b
  · simp only [h, if_true, iff_true]; decide
  · simp only [h, if_false, iff_false]; decide

/-! ## Register and flag state: claims C1 to C5 -/

/-- C1: the claim is that after `setFlagsZeroNegative(b)` the Z bit is set iff `b == 0`. On the
code, for every prior state, `setFlagsZeroNegative(0)` leaves the whole flag byte 0: the Z bit
that `setFlag(Z, true)` has just set is wiped by the following `setFlag(N, false)`, so Z is clear
although `b == 0`. -/
theorem setFlagsZeroNegative_zero_leaves_Z_clear (cpu : CPU) :
    (cpu.setFlagsZeroNegative 0).p = 0
    ∧ (cpu.setFlagsZeroNegative 0).p &&& Flag.Z.mask = 0 := by
  have h : (cpu.setFlagsZeroNegative 0).p = 0 := by
    rw [CPU.setFlagsZeroNegative_p]
    rfl
  rw [h]
  exact ⟨rfl, rfl⟩

/-- C2: the claim is that `getFlag(f)` is `(P & f) != 0`. On the code `getFlag` reads bit 0 of
P whatever the flag: with P = 0x02 (only Z set) `getFlag(Z)` is false, and with P = 0x01 (only C
set) `getFlag(Z)` is true. -/
theorem getFlag_Z_reads_bit_zero :
    (CPU.start 0 0x02 (Bus.ofList [])).getFlag Flag.Z = false
    ∧ 0x02 &&& Flag.Z.mask ≠ 0
    ∧ (CPU.start 0 0x01 (Bus.ofList [])).getFlag Flag.Z = true
    ∧ 0x01 &&& Flag.Z.mask = 0 := by
  decide

/-- C3: the claim is that `setFlag(f, false)` leaves `P & ~f`. On the code, with P = 0xFF,
`setFlag(Z, false)` leaves P = 0x00, whereas clearing only the Z bit would leave 0xFD. -/
theorem setFlag_false_clears_every_bit :
    ((CPU.start 0 0xFF (Bus.ofList [])).setFlag Flag.Z false).p = 0
    ∧ 0xFF &&& (0xFF ^^^ Flag.Z.mask) = 0xFD := by
  decide

/-- C4: for every flag byte P and every flag `f`, `setFlag(f, true)` leaves `P | f`: the bit
selected by `f` is set and every other bit of P is as it was. -/
theorem setFlag_true_sets_only_that_bit (cpu : CPU) (f : Flag) (hp : cpu.p < 256) :
    (cpu.setFlag f true).p = cpu.p ||| f.mask
    ∧ (∀ i, f.mask.testBit i = true → (cpu.setFlag f true).p.testBit i = true)
    ∧ (∀ i, f.mask.testBit i = false →
        (cpu.setFlag f true).p.testBit i = cpu.p.testBit i) := by
  have hlt : cpu.p ||| f.mask < 2 ^ 8 := Nat.or_lt_two_pow hp f.mask_lt
  have hP : (cpu.setFlag f true).p = cpu.p ||| f.mask := by
    rw [CPU.setFlag_true_p]
    exact toByte_of_lt hlt
  refine ⟨hP, ?_, ?_⟩
  · intro i hi
    rw [hP, Nat.testBit_or, hi, Bool.or_true]
  · intro i hi
    rw [hP, Nat.testBit_or, hi, Bool.or_false]

/-- Witness of C4: with P = 0x81 (N and C set), `setFlag(V, true)` leaves P = 0xC1. -/
theorem setFlag_true_sets_only_that_bit_witness :
    (CPU.start 0 0x81 (Bus.ofList [])).p < 256
    ∧ ((CPU.start 0 0x81 (Bus.ofList [])).setFlag Flag.V true).p = 0xC1 := by
  refine ⟨by decide, ?_⟩
  rw [(setFlag_true_sets_only_that_bit (CPU.start 0 0x81 (Bus.ofList [])) Flag.V
    (by decide)).1]
  decide

/-- C5: the claim is that `setFlagsCarryOverflow` sets Carry iff `value > 0xFF` and Overflow by
the two's-complement test on bit 7. On the code, `0x50 + 0x50` (value 0xA0) leaves Overflow
clear although the canonical test is non-zero, and `0x50 + 0xD0` (value 0x120) leaves Carry
clear although `value > 0xFF`. -/
theorem setFlagsCarryOverflow_adc_examples :
    ((CPU.start 0 0 (Bus.ofList [])).setFlagsCarryOverflow 0x50 0x50 0xA0).p
        &&& Flag.V.mask = 0
    ∧ (0xFF ^^^ (0x50 ^^^ 0x50)) &&& (0x50 ^^^ 0xA0) &&& 0x80 ≠ 0
    ∧ ((CPU.start 0 0 (Bus.ofList [])).setFlagsCarryOverflow 0x50 0xD0 0x120).p
        &&& Flag.C.mask = 0
    ∧ 0x120 > 0xFF := by
  decide

/-! ## Fetch helpers and resolver: claims C6 and C7 -/

/-- C6: the claim is that `nextByte` reads the byte at the full 16-bit address PC. On the code,
with PC = 0x0100, memory 0xAA at 0x0100 and 0x55 at 0x0000, `nextByte` returns 0x55, the byte at
PC mod 256, and leaves PC = 0x0101. -/
theorem nextByte_reads_low_byte_of_pc :
    (Bus.ofList [(0x0100, 0xAA), (0x0000, 0x55)]).readByte 0x0100 = 0xAA
    ∧ (CPU.start 0x0100 0 (Bus.ofList [(0x0100, 0xAA), (0x0000, 0x55)])).nextByte.1 = 0x55
    ∧ (CPU.start 0x0100 0 (Bus.ofList [(0x0100, 0xAA), (0x0000, 0x55)])).nextByte.2.pc
        = 0x0101 := by
  decide

/-- C7: the claim is that `getAddr(ABS)` returns `mem[PC] + 256 * mem[PC+1]`. On the code, with
PC = 0 and memory 0x34, 0x12 at addresses 0 and 1, it returns 0x34 (one byte) and leaves PC = 2,
whereas the little-endian word is 0x1234. -/
theorem getAddr_ABS_returns_one_byte :
    (CPU.start 0 0 (Bus.ofList [(0, 0x34), (1, 0x12)])).getAddr Mode.ABS
      = .ok (0x34, CPU.start 2 0 (Bus.ofList [(0, 0x34), (1, 0x12)]))
    ∧ (Bus.ofList [(0, 0x34), (1, 0x12)]).readByte 0
        + 256 * (Bus.ofList [(0, 0x34), (1, 0x12)]).readByte 1 = 0x1234 :=
  ⟨rfl, by decide⟩

/-! ## Load handlers and dispatch: claims C8 to C10 -/

theorem CPU.nextByte_fst_lt (cpu : CPU) : cpu.nextByte.1 < 256 :=
  Bus.readByte_lt _ _

theorem CPU.LDA_ZP0 (cpu : CPU) :
    cpu.LDA .ZP0
      = .ok { cpu.nextByte.2.setFlagsZeroNegative cpu.nextByte.1 with a := cpu.nextByte.1 } := by
  simp only [CPU.LDA, CPU.getAddr, CPU.nextByte, toByte_toWord_readByte]

theorem CPU.LDX_ZP0 (cpu : CPU) :
    cpu.LDX .ZP0
      = .ok { cpu.nextByte.2.setFlagsZeroNegative cpu.nextByte.1 with x := cpu.nextByte.1 } := by
  simp only [CPU.LDX, CPU.getAddr, CPU.nextByte, toByte_toWord_readByte]

theorem CPU.LDY_ZP0 (cpu : CPU) :
    cpu.LDY .ZP0
      = .ok { cpu.nextByte.2.setFlagsZeroNegative cpu.nextByte.1 with y := cpu.nextByte.1 } := by
  simp only [CPU.LDY, CPU.getAddr, CPU.nextByte, toByte_toWord_readByte]

/-- C8: the claim is that LDA immediate (0xA9) leaves A equal to the byte that follows the
opcode. On the code, with PC = 0 and memory 0xA9, 0x42 at addresses 0 and 1,
`runNextInstruction` leaves A = 0x01, the low byte of the address of the operand, and not the
operand 0x42 (PC = 2 and P = 0 afterwards). -/
theorem LDA_IMM_loads_operand_address :
    (CPU.start 0 0 (Bus.ofList [(0, 0xA9), (1, 0x42)])).runNextInstruction
      = .ok { CPU.start 2 0 (Bus.ofList [(0, 0xA9), (1, 0x42)]) with a := 0x01 }
    ∧ (Bus.ofList [(0, 0xA9), (1, 0x42)]).readByte 1 = 0x42 :=
  ⟨rfl, by decide⟩

/-- C9 as stated fails: with PC = 1 at the operand, memory 0x10 at address 1 and 0x99 at address
0x10, LDA zero page (0xA5) leaves A = 0x10, the operand byte, whereas the byte that memory holds
at the effective address 0x10 is 0x99. -/
theorem load_ZP0_not_dereferenced :
    (CPU.start 1 0 (Bus.ofList [(1, 0x10), (0x10, 0x99)])).runInstruction 0xA5
      = .ok { CPU.start 2 0 (Bus.ofList [(1, 0x10), (0x10, 0x99)]) with a := 0x10 }
    ∧ (Bus.ofList [(1, 0x10), (0x10, 0x99)]).readByte 0x10 = 0x99 :=
  ⟨rfl, by decide⟩

/-- C9 amended: for every state and memory image, a load in ZeroPage mode (LDA 0xA5, LDX 0xA6,
LDY 0xA4) succeeds and stores into the named register the operand byte itself, the byte that
`nextByte` fetches; the flag byte afterwards is the one `setFlagsZeroNegative` makes of that
byte, in which N is set iff bit 7 of the operand byte is 1. -/
theorem load_ZP0_register_is_operand (cpu : CPU) :
    (∃ c, cpu.runInstruction 0xA5 = .ok c ∧ c.a = cpu.nextByte.1
        ∧ c.p = (cpu.nextByte.2.setFlagsZeroNegative cpu.nextByte.1).p
        ∧ ((c.p &&& Flag.N.mask ≠ 0) ↔ 128 ≤ cpu.nextByte.1))
    ∧ (∃ c, cpu.runInstruction 0xA6 = .ok c ∧ c.x = cpu.nextByte.1
        ∧ c.p = (cpu.nextByte.2.setFlagsZeroNegative cpu.nextByte.1).p
        ∧ ((c.p &&& Flag.N.mask ≠ 0) ↔ 128 ≤ cpu.nextByte.1))
    ∧ (∃ c, cpu.runInstruction 0xA4 = .ok c ∧ c.y = cpu.nextByte.1
        ∧ c.p = (cpu.nextByte.2.setFlagsZeroNegative cpu.nextByte.1).p
        ∧ ((c.p &&& Flag.N.mask ≠ 0) ↔ 128 ≤ cpu.nextByte.1)) := by
  refine ⟨⟨_, cpu.LDA_ZP0, rfl, rfl, ?_⟩, ⟨_, cpu.LDX_ZP0, rfl, rfl, ?_⟩,
    ⟨_, cpu.LDY_ZP0, rfl, rfl, ?_⟩⟩ <;>
  exact CPU.setFlagsZeroNegative_N_bit _ _ cpu.nextByte_fst_lt

/-- C10 as stated fails: the opcode 0xEA has no case in the switch, and `runInstruction(0xEA)`
with PC = 5 and P = 0x41 returns normally, without any error, having advanced PC to 6. -/
theorem runInstruction_unhandled_advances_pc :
    (CPU.start 5 0x41 (Bus.ofList [])).runInstruction 0xEA
      = .ok (CPU.start 6 0x41 (Bus.ofList [])) :=
  rfl

/-- C10 amended: for every opcode byte other than the 18 load opcodes of the switch,
`runInstruction` reports no error; it advances PC by one (mod 65536) and changes no register, no
flag, no memory byte and no cycle count. -/
theorem runInstruction_default (cpu : CPU) (opcode : Nat)
    (h : toByte opcode ∉ CPU.handledOpcodes) :
    cpu.runInstruction opcode = .ok { cpu with pc := toWord (cpu.pc + 1) } := by
  simp only [CPU.handledOpcodes, List.mem_cons, List.mem_singleton, not_or, List.not_mem_nil,
    not_false_eq_true, and_true] at h
  unfold CPU.runInstruction
  split <;> first | rfl | omega

/-- Witness of C10 amended: 0xEA is not a case label, and `runInstruction(0xEA)` at PC = 0xFFFF
wraps PC to 0. -/
theorem runInstruction_default_witness :
    toByte 0xEA ∉ CPU.handledOpcodes
    ∧ (CPU.start 0xFFFF 0 (Bus.ofList [])).runInstruction 0xEA
        = .ok { CPU.start 0xFFFF 0 (Bus.ofList []) with pc := toWord (0xFFFF + 1) } :=
  ⟨by decide, runInstruction_default (CPU.start 0xFFFF 0 (Bus.ofList [])) 0xEA (by decide)⟩

/-! ## Frame lemmas -/

theorem CPU.setFlag_frame (cpu : CPU) (f : Flag) (v : Bool) :
    (cpu.setFlag f v).a = cpu.a ∧ (cpu.setFlag f v).x = cpu.x ∧ (cpu.setFlag f v).y = cpu.y
    ∧ (cpu.setFlag f v).sp = cpu.sp ∧ (cpu.setFlag f v).pc = cpu.pc
    ∧ (cpu.setFlag f v).bus = cpu.bus := by
  cases v <;> exact ⟨rfl, rfl, rfl, rfl, rfl, rfl⟩

theorem CPU.setFlagsZeroNegative_frame (cpu : CPU) (value : Nat) :
    (cpu.setFlagsZeroNegative value).a = cpu.a ∧ (cpu.setFlagsZeroNegative value).x = cpu.x
    ∧ (cpu.setFlagsZeroNegative value).y = cpu.y
    ∧ (cpu.setFlagsZeroNegative value).sp = cpu.sp
    ∧ (cpu.setFlagsZeroNegative value).pc = cpu.pc
    ∧ (cpu.setFlagsZeroNegative value).bus = cpu.bus := by
  unfold CPU.setFlagsZeroNegative
  obtain ⟨h1, h2, h3, h4, h5, h6⟩ := CPU.setFlag_frame
    (cpu.setFlag Flag.Z (toByte value == 0)) Flag.N ((toByte value &&& (1 <<< 7)) != 0)
  obtain ⟨g1, g2, g3, g4, g5, g6⟩ := CPU.setFlag_frame cpu Flag.Z (toByte value == 0)
  exact ⟨h1.trans g1, h2.trans g2, h3.trans g3, h4.trans g4, h5.trans g5, h6.trans g6⟩

/-- For every mode with a case in its switch, `getAddr` returns an address, and the state it
leaves differs from the one it started in by the program counter and the cycle count only. -/
theorem CPU.getAddr_frame (cpu : CPU) (mode : Mode) (h : mode.resolved = true) :
    ∃ addr c, cpu.getAddr mode = .ok (addr, c) ∧ c.a = cpu.a ∧ c.x = cpu.x ∧ c.y = cpu.y
      ∧ c.sp = cpu.sp ∧ c.p = cpu.p ∧ c.bus.ram = cpu.bus.ram := by
  cases mode <;> first
    | exact absurd h (by decide)
    | (simp only [CPU.getAddr, CPU.nextByte, CPU.nextWord]
       first
         | exact ⟨_, _, rfl, rfl, rfl, rfl, rfl, rfl, rfl⟩
         | (split <;> exact ⟨_, _, rfl, rfl, rfl, rfl, rfl, rfl, rfl⟩))

theorem CPU.LDA_frame (cpu : CPU) (mode : Mode) (h : mode.resolved = true) :
    ∃ c, cpu.LDA mode = .ok c ∧ c.x = cpu.x ∧ c.y = cpu.y ∧ c.sp = cpu.sp
      ∧ c.bus.ram = cpu.bus.ram ∧ (c.p = 0 ∨ c.p = Flag.N.mask) := by
  obtain ⟨addr, c, hg, _, hx, hy, hsp, _, hram⟩ := cpu.getAddr_frame mode h
  obtain ⟨_, g2, g3, g4, _, g6⟩ := c.setFlagsZeroNegative_frame (toByte addr)
  refine ⟨{ c.setFlagsZeroNegative (toByte addr) with a := toByte addr }, ?_,
    g2.trans hx, g3.trans hy, g4.trans hsp, ?_, ?_⟩
  · simp only [CPU.LDA, hg]
  · show (c.setFlagsZeroNegative (toByte addr)).bus.ram = _
    rw [g6, hram]
  · show (c.setFlagsZeroNegative (toByte addr)).p = 0 ∨ _
    rw [CPU.setFlagsZeroNegative_p]
    split
    · exact Or.inr rfl
    · exact Or.inl rfl

theorem CPU.LDX_frame (cpu : CPU) (mode : Mode) (h : mode.resolved = true) :
    ∃ c, cpu.LDX mode = .ok c ∧ c.a = cpu.a ∧ c.y = cpu.y ∧ c.sp = cpu.sp
      ∧ c.bus.ram = cpu.bus.ram ∧ (c.p = 0 ∨ c.p = Flag.N.mask) := by
  obtain ⟨addr, c, hg, ha, _, hy, hsp, _, hram⟩ := cpu.getAddr_frame mode h
  obtain ⟨g1, _, g3, g4, _, g6⟩ := c.setFlagsZeroNegative_frame (toByte addr)
  refine ⟨{ c.setFlagsZeroNegative (toByte addr) with x := toByte addr }, ?_,
    g1.trans ha, g3.trans hy, g4.trans hsp, ?_, ?_⟩
  · simp only [CPU.LDX, hg]
  · show (c.setFlagsZeroNegative (toByte addr)).bus.ram = _
    rw [g6, hram]
  · show (c.setFlagsZeroNegative (toByte addr)).p = 0 ∨ _
    rw [CPU.setFlagsZeroNegative_p]
    split
    · exact Or.inr rfl
    · exact Or.inl rfl

theorem CPU.LDY_frame (cpu : CPU) (mode : Mode) (h : mode.resolved = true) :
    ∃ c, cpu.LDY mode = .ok c ∧ c.a = cpu.a ∧ c.x = cpu.x ∧ c.sp = cpu.sp
      ∧ c.bus.ram = cpu.bus.ram ∧ (c.p = 0 ∨ c.p = Flag.N.mask) := by
  obtain ⟨addr, c, hg, ha, hx, _, hsp, _, hram⟩ := cpu.getAddr_frame mode h
  obtain ⟨g1, g2, _, g4, _, g6⟩ := c.setFlagsZeroNegative_frame (toByte addr)
  refine ⟨{ c.setFlagsZeroNegative (toByte addr) with y := toByte addr }, ?_,
    g1.trans ha, g2.trans hx, g4.trans hsp, ?_, ?_⟩
  · simp only [CPU.LDY, hg]
  · show (c.setFlagsZeroNegative (toByte addr)).bus.ram = _
    rw [g6, hram]
  · show (c.setFlagsZeroNegative (toByte addr)).p = 0 ∨ _
    rw [CPU.setFlagsZeroNegative_p]
    split
    · exact Or.inr rfl
    · exact Or.inl rfl

/-- For every mode with a case in its switch, `getAddr` advances PC by the number of bytes its
fetch helper consumes: 2 where it calls `nextWord` (ABS, ABX, ABY, IND, IZY), 1 otherwise. -/
theorem CPU.getAddr_pc (cpu : CPU) (mode : Mode) (h : mode.resolved = true) :
    ∃ r, cpu.getAddr mode = .ok r
      ∧ r.2.pc = toWord (cpu.pc + (match mode with
          | .ABS | .ABX | .ABY | .IND | .IZY => 2
          | _ => 1)) := by
  cases mode <;> first
    | exact absurd h (by decide)
    | (simp only [CPU.getAddr, CPU.nextByte, CPU.nextWord]
       first
         | exact ⟨_, rfl, rfl⟩
         | (split <;> exact ⟨_, rfl, rfl⟩))

/-! ## Utils and bus lemmas -/

theorem Utils.lowByte_eq (d : Nat) : Utils.lowByte d = d % 256 := by
  have h := Nat.and_pow_two_sub_one_eq_mod (toWord d) 8
  have e : Utils.lowByte d = toWord d % 2 ^ 8 := h
  rw [e]
  unfold toWord
  omega

theorem Utils.lowByte_offset (b i : Nat) :
    toWord (Utils.lowByte (Utils.offset b i)) = (b + i) % 256 := by
  rw [Utils.lowByte_eq]
  unfold Utils.offset toWord toByte
  omega

theorem Utils.offset_zero {b : Nat} (hb : b < 256) : Utils.offset b 0 = b := by
  unfold Utils.offset toWord toByte
  omega

theorem Utils.cross_zero {b : Nat} (hb : b < 256) : Utils.cross b 0 = false := by
  unfold Utils.cross
  rw [Utils.offset_zero hb]
  simp

theorem Utils.highByte_of_lt {m : Nat} (hm : m < 256) : Utils.highByte m = 0 := by
  unfold Utils.highByte
  rw [toWord_of_lt (by omega)]
  apply Nat.eq_of_testBit_eq
  intro i
  rw [Nat.testBit_and, Nat.zero_testBit]
  by_cases hi : i < 8
  · have h0 : (0xFF00 : Nat).testBit i = false := by
      interval_cases i <;> rfl
    rw [h0, Bool.and_false]
  · have hlt : m < 2 ^ i :=
      Nat.lt_of_lt_of_le hm (Nat.pow_le_pow_right (Nat.succ_pos 1) (Nat.le_of_not_lt hi))
    rw [Nat.testBit_lt_two_pow hlt, Bool.false_and]

theorem Bus.readByte_tick (bus : Bus) (addr : Nat) : bus.tick.readByte addr = bus.readByte addr :=
  rfl

theorem toByte_ge_128_iff (b : Nat) : 128 ≤ toByte b ↔ b.testBit 7 = true := by
  rw [Nat.testBit_to_div_mod]
  simp only [decide_eq_true_eq]
  unfold toByte
  omega

theorem Flag.N_mask_and_other (f : Flag) (hf : f ≠ Flag.N) : Flag.N.mask &&& f.mask = 0 := by
  cases f <;> first | rfl | exact absurd rfl hf

theorem CPU.runInstruction_load_p (cpu : CPU) (op : Nat) (hop : op ∈ CPU.handledOpcodes) :
    ∃ c, cpu.runInstruction op = .ok c ∧ (c.p = 0 ∨ c.p = Flag.N.mask) := by
  simp only [CPU.handledOpcodes, List.mem_cons, List.mem_singleton, List.not_mem_nil,
    or_false] at hop
  rcases hop with rfl | rfl | rfl | rfl | rfl | rfl | rfl | rfl | rfl | rfl | rfl | rfl | rfl
    | rfl | rfl | rfl | rfl | rfl
  · obtain ⟨c, h, _, _, _, _, hp⟩ := cpu.LDA_frame .IMM rfl; exact ⟨c, h, hp⟩
  · obtain ⟨c, h, _, _, _, _, hp⟩ := cpu.LDA_frame .ZP0 rfl; exact ⟨c, h, hp⟩
  · obtain ⟨c, h, _, _, _, _, hp⟩ := cpu.LDA_frame .ZPX rfl; exact ⟨c, h, hp⟩
  · obtain ⟨c, h, _, _, _, _, hp⟩ := cpu.LDA_frame .ABS rfl; exact ⟨c, h, hp⟩
  · obtain ⟨c, h, _, _, _, _, hp⟩ := cpu.LDA_frame .ABX rfl; exact ⟨c, h, hp⟩
  · obtain ⟨c, h, _, _, _, _, hp⟩ := cpu.LDA_frame .ABY rfl; exact ⟨c, h, hp⟩
  · obtain ⟨c, h, _, _, _, _, hp⟩ := cpu.LDA_frame .IZX rfl; exact ⟨c, h, hp⟩
  · obtain ⟨c, h, _, _, _, _, hp⟩ := cpu.LDA_frame .IZY rfl; exact ⟨c, h, hp⟩
  · obtain ⟨c, h, _, _, _, _, hp⟩ := cpu.LDX_frame .IMM rfl; exact ⟨c, h, hp⟩
  · obtain ⟨c, h, _, _, _, _, hp⟩ := cpu.LDX_frame .ZP0 rfl; exact ⟨c, h, hp⟩
  · obtain ⟨c, h, _, _, _, _, hp⟩ := cpu.LDX_frame .ZPY rfl; exact ⟨c, h, hp⟩
  · obtain ⟨c, h, _, _, _, _, hp⟩ := cpu.LDX_frame .ABS rfl; exact ⟨c, h, hp⟩
  · obtain ⟨c, h, _, _, _, _, hp⟩ := cpu.LDX_frame .ABY rfl; exact ⟨c, h, hp⟩
  · obtain ⟨c, h, _, _, _, _, hp⟩ := cpu.LDY_frame .IMM rfl; exact ⟨c, h, hp⟩
  · obtain ⟨c, h, _, _, _, _, hp⟩ := cpu.LDY_frame .ZP0 rfl; exact ⟨c, h, hp⟩
  · obtain ⟨c, h, _, _, _, _, hp⟩ := cpu.LDY_frame .ZPX rfl; exact ⟨c, h, hp⟩
  · obtain ⟨c, h, _, _, _, _, hp⟩ := cpu.LDY_frame .ABS rfl; exact ⟨c, h, hp⟩
  · obtain ⟨c, h, _, _, _, _, hp⟩ := cpu.LDY_frame .ABX rfl; exact ⟨c, h, hp⟩

/-! ## Resolver and stores: claims C11 to C16 -/

/-- C11: the claim is that `getAddr` advances PC by 1 for IndirectY. On the code, `getAddr(IZY)`
fetches through `nextWord` and advances PC by 2 from every state (from PC = 0 to PC = 2), where
the sibling `getAddr(IZX)` fetches through `nextByte` and advances PC by 1. -/
theorem getAddr_IZY_advances_pc_by_two (cpu : CPU) :
    (∃ r, cpu.getAddr Mode.IZY = .ok r ∧ r.2.pc = toWord (cpu.pc + 2))
    ∧ (∃ r, cpu.getAddr Mode.IZX = .ok r ∧ r.2.pc = toWord (cpu.pc + 1))
    ∧ (CPU.start 0 0 (Bus.ofList [])).getAddr Mode.IZY
        = .ok (0, CPU.start 2 0 (Bus.ofList [])) := by
  refine ⟨?_, ⟨_, rfl, rfl⟩, rfl⟩
  simp only [CPU.getAddr, CPU.nextWord]
  split <;> exact ⟨_, rfl, rfl⟩

/-- C12: the claim is that `getAddr(IND)` with operand bytes 0xFF, 0x30 reads the low byte of
the effective address at 0x30FF and the high byte at 0x3000. On the code the pointer is the
single byte `nextWord` returns, 0x00FF: the low byte is read at 0x00FF and the high byte at
0x0000, so with 0x34 at 0x30FF, 0x12 at 0x3000, 0x78 at 0x00FF and 0x56 at 0x0000 the result is
0x5678 and not 0x1234. -/
theorem getAddr_IND_reads_zero_page_pointer :
    (CPU.start 0x10 0 (Bus.ofList [(0x10, 0xFF), (0x11, 0x30), (0x30FF, 0x34), (0x3000, 0x12),
        (0x3100, 0x9A), (0x00FF, 0x78), (0x0000, 0x56)])).getAddr Mode.IND
      = .ok (0x5678, CPU.start 0x12 0 (Bus.ofList [(0x10, 0xFF), (0x11, 0x30), (0x30FF, 0x34),
        (0x3000, 0x12), (0x3100, 0x9A), (0x00FF, 0x78), (0x0000, 0x56)]))
    ∧ (Bus.ofList [(0x10, 0xFF), (0x11, 0x30), (0x30FF, 0x34), (0x3000, 0x12),
        (0x3100, 0x9A), (0x00FF, 0x78), (0x0000, 0x56)]).readNoncontinuousWord 0x30FF 0x3000
      = 0x1234 :=
  ⟨rfl, by decide⟩

/-- C13 as stated fails: from PC = 0 with memory 0xA9, 0x00, 0xF0, 0x02, 0xA9, 0xFF, the first
instruction leaves A = 0x01 and P = 0 (Zero clear), and the second leaves PC = 4, not 6. -/
theorem scenario_LDA_BEQ_actual :
    (CPU.start 0 0 (Bus.ofList [(0, 0xA9), (1, 0x00), (2, 0xF0), (3, 0x02), (4, 0xA9),
        (5, 0xFF)])).runNextInstruction
      = .ok { CPU.start 2 0 (Bus.ofList [(0, 0xA9), (1, 0x00), (2, 0xF0), (3, 0x02), (4, 0xA9),
        (5, 0xFF)]) with a := 0x01 }
    ∧ (CPU.start 0 0 (Bus.ofList [(0, 0xA9), (1, 0x00), (2, 0xF0), (3, 0x02), (4, 0xA9),
        (5, 0xFF)])).runTwoInstructions
      = .ok { CPU.start 4 0 (Bus.ofList [(0, 0xA9), (1, 0x00), (2, 0xF0), (3, 0x02), (4, 0xA9),
        (5, 0xFF)]) with a := 0x01 } :=
  ⟨rfl, rfl⟩

/-- C13 amended: from PC = 0 with memory 0xA9, 0x00, 0xF0, 0x02, 0xA9, 0xFF, the first
instruction consumes two bytes (PC = 2), and the second (opcode 0xF0, which has no handler)
takes no branch: it leaves PC = 4, at the LDA #$FF, with A, X, Y, SP, P, memory and the cycle
count as the first instruction left them. -/
theorem scenario_LDA_BEQ_no_branch :
    ∃ c1 c2,
      (CPU.start 0 0 (Bus.ofList [(0, 0xA9), (1, 0x00), (2, 0xF0), (3, 0x02), (4, 0xA9),
        (5, 0xFF)])).runNextInstruction = .ok c1
      ∧ c1.pc = 2
      ∧ c1.runNextInstruction = .ok c2
      ∧ (CPU.start 0 0 (Bus.ofList [(0, 0xA9), (1, 0x00), (2, 0xF0), (3, 0x02), (4, 0xA9),
        (5, 0xFF)])).runTwoInstructions = .ok c2
      ∧ c2 = { c1 with pc := 4 }
      ∧ c2.bus.readByte c2.pc = 0xA9 :=
  ⟨_, _, rfl, rfl, rfl, rfl, rfl, by decide⟩

/-- C14 as stated fails: a newly constructed CPU has SP = 0, not 0xFD, and P = 0, with the
unused bit clear. -/
theorem new_sp_and_p_are_zero :
    (CPU.new (Bus.ofList [])).sp = 0
    ∧ (CPU.new (Bus.ofList [])).sp ≠ 0xFD
    ∧ (CPU.new (Bus.ofList [])).p = 0
    ∧ (CPU.new (Bus.ofList [])).p &&& unusedMask = 0 := by
  decide

/-- C14 amended: a newly constructed CPU has A = X = Y = 0, SP = 0, PC = 0 and P = 0, so every
flag, the unused bit included, is clear. -/
theorem new_all_registers_zero (bus : Bus) :
    (CPU.new bus).a = 0 ∧ (CPU.new bus).x = 0 ∧ (CPU.new bus).y = 0
    ∧ (CPU.new bus).sp = 0 ∧ (CPU.new bus).pc = 0 ∧ (CPU.new bus).p = 0
    ∧ (∀ f : Flag, (CPU.new bus).p &&& f.mask = 0)
    ∧ (CPU.new bus).p &&& unusedMask = 0 := by
  refine ⟨rfl, rfl, rfl, rfl, rfl, rfl, ?_, Nat.zero_and _⟩
  intro f
  exact Nat.zero_and _

/-- C15: the claim is that `STA` writes A at the 16-bit address the resolver returns. On the
code, with PC = 0, operand 0xFF, X = 1 and A = 0x42, `getAddr(ABX)` returns 0x0100 but
`STA(ABX)` writes 0x42 at address 0x0000 (the address narrowed to a byte) and leaves the byte at
0x0100 as it was, 0x00. -/
theorem STA_ABX_writes_low_byte_address :
    ({ CPU.start 0 0 (Bus.ofList [(0, 0xFF)]) with a := 0x42, x := 1 }).getAddr Mode.ABX
      = .ok (0x0100, { CPU.start 2 0 (Bus.ofList [(0, 0xFF)]).tick with a := 0x42, x := 1 })
    ∧ (∃ c, ({ CPU.start 0 0 (Bus.ofList [(0, 0xFF)]) with a := 0x42, x := 1 }).STA Mode.ABX
          = .ok c
        ∧ c.bus.readByte 0x0100 = 0x00 ∧ c.bus.readByte 0x0000 = 0x42) :=
  ⟨rfl, _, rfl, by decide, by decide⟩

/-- C16: for every state and every mode the resolver handles, `STA`, `STX` and `STY` return
normally and leave P, A, X, Y and SP as they were. -/
theorem stores_leave_registers_and_flags (cpu : CPU) (mode : Mode)
    (h : mode.resolved = true) :
    (∃ c, cpu.STA mode = .ok c ∧ c.p = cpu.p ∧ c.a = cpu.a ∧ c.x = cpu.x ∧ c.y = cpu.y
      ∧ c.sp = cpu.sp)
    ∧ (∃ c, cpu.STX mode = .ok c ∧ c.p = cpu.p ∧ c.a = cpu.a ∧ c.x = cpu.x ∧ c.y = cpu.y
      ∧ c.sp = cpu.sp)
    ∧ (∃ c, cpu.STY mode = .ok c ∧ c.p = cpu.p ∧ c.a = cpu.a ∧ c.x = cpu.x ∧ c.y = cpu.y
      ∧ c.sp = cpu.sp) := by
  obtain ⟨addr, c, hg, ha, hx, hy, hsp, hp, _⟩ := cpu.getAddr_frame mode h
  refine ⟨⟨{ c with bus := c.bus.writeByte (toByte addr) c.a }, ?_, hp, ha, hx, hy, hsp⟩,
    ⟨{ c with bus := c.bus.writeByte (toByte addr) c.x }, ?_, hp, ha, hx, hy, hsp⟩,
    ⟨{ c with bus := c.bus.writeByte (toByte addr) c.y }, ?_, hp, ha, hx, hy, hsp⟩⟩
  · simp only [CPU.STA, hg]
  · simp only [CPU.STX, hg]
  · simp only [CPU.STY, hg]

/-- Witness of C16: `STA` in AbsoluteX mode, from A = 0x42, X = 1, SP = 0 and P = 0xC3. -/
theorem stores_leave_registers_and_flags_witness :
    Mode.ABX.resolved = true
    ∧ ∃ c, ({ CPU.start 0 0xC3 (Bus.ofList [(0, 0xFF)]) with a := 0x42, x := 1 }).STA Mode.ABX
          = .ok c
        ∧ c.p = 0xC3 ∧ c.a = 0x42 ∧ c.x = 1 ∧ c.y = 0 ∧ c.sp = 0 :=
  ⟨rfl, (stores_leave_registers_and_flags
    { CPU.start 0 0xC3 (Bus.ofList [(0, 0xFF)]) with a := 0x42, x := 1 } Mode.ABX rfl).1⟩

/-! ## Loads: claims C17 to C20 -/

/-- C17: for every PC <= 0xFD, every byte v and X = 0, when memory holds one of the LDA opcodes
0xA5, 0xB5, 0xAD, 0xBD at PC and v at PC+1, `runNextInstruction` returns normally with A = v. -/
theorem LDA_loads_byte_after_opcode (cpu : CPU) (op v : Nat)
    (hpc : cpu.pc ≤ 0xFD) (hx : cpu.x = 0)
    (hop : op = 0xA5 ∨ op = 0xB5 ∨ op = 0xAD ∨ op = 0xBD)
    (hmem : cpu.bus.readByte cpu.pc = op) (hv : cpu.bus.readByte (cpu.pc + 1) = v) :
    ∃ c, cpu.runNextInstruction = .ok c ∧ c.a = v := by
  have hv256 : v < 256 := hv ▸ Bus.readByte_lt _ _
  have h1 : toByte cpu.pc = cpu.pc := toByte_of_lt (by omega)
  have h2 : toWord (cpu.pc + 1) = cpu.pc + 1 := toWord_of_lt (by omega)
  have h3 : toByte (cpu.pc + 1) = cpu.pc + 1 := toByte_of_lt (by omega)
  have hvw : toWord v = v := toWord_of_lt (by omega)
  have hvb : toByte v = v := toByte_of_lt hv256
  have hrun : cpu.runNextInstruction
      = CPU.runInstruction { cpu with pc := cpu.pc + 1 } op := by
    simp only [CPU.runNextInstruction, CPU.nextByte, h1, h2, hmem]
  rw [hrun]
  rcases hop with rfl | rfl | rfl | rfl
  · refine ⟨_, rfl, ?_⟩
    simp only [CPU.nextByte, h3, hv, hvw, hvb]
  · refine ⟨_, rfl, ?_⟩
    simp only [CPU.nextByte, h3, Bus.readByte_tick, hv, hx, Utils.lowByte_offset, Nat.add_zero]
    show toByte (v % 256) = v
    unfold toByte; omega
  · refine ⟨_, rfl, ?_⟩
    simp only [CPU.nextWord, h3, hv, hvw, hvb]
  · have hc : Utils.cross v 0 = false := Utils.cross_zero hv256
    have ho : Utils.offset v 0 = v := Utils.offset_zero hv256
    refine ⟨_, rfl, ?_⟩
    simp only [CPU.nextWord, h3, hv, hvw, hx, hc, Bool.false_eq_true, if_false, ho, hvb]

/-- Witness of C17: the test's ZP0 case, opcode 0xA5 at PC = 2 and 0x02 at address 3. -/
theorem LDA_loads_byte_after_opcode_witness :
    ∃ c, (CPU.start 2 0 (Bus.ofList [(2, 0xA5), (3, 0x02)])).runNextInstruction = .ok c
      ∧ c.a = 0x02 :=
  LDA_loads_byte_after_opcode (CPU.start 2 0 (Bus.ofList [(2, 0xA5), (3, 0x02)])) 0xA5 0x02
    (by decide) rfl (Or.inl rfl) (by decide) (by decide)

/-- C18: for every state, `getAddr(ZPX)` returns `(b + X) mod 256`, with `b` the operand byte
that `nextByte` fetches, so the address is below 0x0100 (high byte 0), and the resolver issues
exactly one tick; likewise `getAddr(ZPY)` with Y. -/
theorem getAddr_ZPX_ZPY_wraps_in_zero_page (cpu : CPU) :
    (∃ c, cpu.getAddr Mode.ZPX = .ok ((cpu.nextByte.1 + cpu.x) % 256, c)
      ∧ Utils.highByte ((cpu.nextByte.1 + cpu.x) % 256) = 0
      ∧ c.bus.cycles = cpu.bus.cycles + 1 ∧ c.bus.ram = cpu.bus.ram)
    ∧ (∃ c, cpu.getAddr Mode.ZPY = .ok ((cpu.nextByte.1 + cpu.y) % 256, c)
      ∧ Utils.highByte ((cpu.nextByte.1 + cpu.y) % 256) = 0
      ∧ c.bus.cycles = cpu.bus.cycles + 1 ∧ c.bus.ram = cpu.bus.ram) := by
  refine ⟨⟨{ cpu with pc := toWord (cpu.pc + 1), bus := cpu.bus.tick }, ?_,
      Utils.highByte_of_lt (Nat.mod_lt _ (by decide)), rfl, rfl⟩,
    ⟨{ cpu with pc := toWord (cpu.pc + 1), bus := cpu.bus.tick }, ?_,
      Utils.highByte_of_lt (Nat.mod_lt _ (by decide)), rfl, rfl⟩⟩
  · simp only [CPU.getAddr, CPU.nextByte, Bus.readByte_tick, Utils.lowByte_offset]
  · simp only [CPU.getAddr, CPU.nextByte, Bus.readByte_tick, Utils.lowByte_offset]

/-- C19: for every state and memory image, each LDA opcode returns normally and leaves X, Y and
SP unchanged, each LDX opcode leaves A, Y and SP unchanged, each LDY opcode leaves A, X and SP
unchanged, and none of them changes a byte of memory. -/
theorem loads_change_only_named_register (cpu : CPU) (op : Nat) :
    (op ∈ CPU.ldaOpcodes → ∃ c, cpu.runInstruction op = .ok c
      ∧ c.x = cpu.x ∧ c.y = cpu.y ∧ c.sp = cpu.sp ∧ c.bus.ram = cpu.bus.ram)
    ∧ (op ∈ CPU.ldxOpcodes → ∃ c, cpu.runInstruction op = .ok c
      ∧ c.a = cpu.a ∧ c.y = cpu.y ∧ c.sp = cpu.sp ∧ c.bus.ram = cpu.bus.ram)
    ∧ (op ∈ CPU.ldyOpcodes → ∃ c, cpu.runInstruction op = .ok c
      ∧ c.a = cpu.a ∧ c.x = cpu.x ∧ c.sp = cpu.sp ∧ c.bus.ram = cpu.bus.ram) := by
  refine ⟨?_, ?_, ?_⟩
  · intro hop
    simp only [CPU.ldaOpcodes, List.mem_cons, List.mem_singleton, List.not_mem_nil,
      or_false] at hop
    rcases hop with rfl | rfl | rfl | rfl | rfl | rfl | rfl | rfl
    · obtain ⟨c, h, h1, h2, h3, h4, _⟩ := cpu.LDA_frame .IMM rfl; exact ⟨c, h, h1, h2, h3, h4⟩
    · obtain ⟨c, h, h1, h2, h3, h4, _⟩ := cpu.LDA_frame .ZP0 rfl; exact ⟨c, h, h1, h2, h3, h4⟩
    · obtain ⟨c, h, h1, h2, h3, h4, _⟩ := cpu.LDA_frame .ZPX rfl; exact ⟨c, h, h1, h2, h3, h4⟩
    · obtain ⟨c, h, h1, h2, h3, h4, _⟩ := cpu.LDA_frame .ABS rfl; exact ⟨c, h, h1, h2, h3, h4⟩
    · obtain ⟨c, h, h1, h2, h3, h4, _⟩ := cpu.LDA_frame .ABX rfl; exact ⟨c, h, h1, h2, h3, h4⟩
    · obtain ⟨c, h, h1, h2, h3, h4, _⟩ := cpu.LDA_frame .ABY rfl; exact ⟨c, h, h1, h2, h3, h4⟩
    · obtain ⟨c, h, h1, h2, h3, h4, _⟩ := cpu.LDA_frame .IZX rfl; exact ⟨c, h, h1, h2, h3, h4⟩
    · obtain ⟨c, h, h1, h2, h3, h4, _⟩ := cpu.LDA_frame .IZY rfl; exact ⟨c, h, h1, h2, h3, h4⟩
  · intro hop
    simp only [CPU.ldxOpcodes, List.mem_cons, List.mem_singleton, List.not_mem_nil,
      or_false] at hop
    rcases hop with rfl | rfl | rfl | rfl | rfl
    · obtain ⟨c, h, h1, h2, h3, h4, _⟩ := cpu.LDX_frame .IMM rfl; exact ⟨c, h, h1, h2, h3, h4⟩
    · obtain ⟨c, h, h1, h2, h3, h4, _⟩ := cpu.LDX_frame .ZP0 rfl; exact ⟨c, h, h1, h2, h3, h4⟩
    · obtain ⟨c, h, h1, h2, h3, h4, _⟩ := cpu.LDX_frame .ZPY rfl; exact ⟨c, h, h1, h2, h3, h4⟩
    · obtain ⟨c, h, h1, h2, h3, h4, _⟩ := cpu.LDX_frame .ABS rfl; exact ⟨c, h, h1, h2, h3, h4⟩
    · obtain ⟨c, h, h1, h2, h3, h4, _⟩ := cpu.LDX_frame .ABY rfl; exact ⟨c, h, h1, h2, h3, h4⟩
  · intro hop
    simp only [CPU.ldyOpcodes, List.mem_cons, List.mem_singleton, List.not_mem_nil,
      or_false] at hop
    rcases hop with rfl | rfl | rfl | rfl | rfl
    · obtain ⟨c, h, h1, h2, h3, h4, _⟩ := cpu.LDY_frame .IMM rfl; exact ⟨c, h, h1, h2, h3, h4⟩
    · obtain ⟨c, h, h1, h2, h3, h4, _⟩ := cpu.LDY_frame .ZP0 rfl; exact ⟨c, h, h1, h2, h3, h4⟩
    · obtain ⟨c, h, h1, h2, h3, h4, _⟩ := cpu.LDY_frame .ZPX rfl; exact ⟨c, h, h1, h2, h3, h4⟩
    · obtain ⟨c, h, h1, h2, h3, h4, _⟩ := cpu.LDY_frame .ABS rfl; exact ⟨c, h, h1, h2, h3, h4⟩
    · obtain ⟨c, h, h1, h2, h3, h4, _⟩ := cpu.LDY_frame .ABX rfl; exact ⟨c, h, h1, h2, h3, h4⟩

/-- Witness of C19: LDA absolute,X (0xBD), LDX zero page,Y (0xB6) and LDY immediate (0xA0) from
a state with A = 1, X = 2, Y = 3, SP = 4. -/
theorem loads_change_only_named_register_witness :
    (∃ c, ({ CPU.start 0 0 (Bus.ofList [(0, 0xFF)]) with
          sp := 4, a := 1, x := 2, y := 3 }).runInstruction 0xbd = .ok c
      ∧ c.x = 2 ∧ c.y = 3 ∧ c.sp = 4 ∧ c.bus.ram = (Bus.ofList [(0, 0xFF)]).ram)
    ∧ (∃ c, ({ CPU.start 0 0 (Bus.ofList [(0, 0xFF)]) with
          sp := 4, a := 1, x := 2, y := 3 }).runInstruction 0xb6 = .ok c
      ∧ c.a = 1 ∧ c.y = 3 ∧ c.sp = 4 ∧ c.bus.ram = (Bus.ofList [(0, 0xFF)]).ram)
    ∧ (∃ c, ({ CPU.start 0 0 (Bus.ofList [(0, 0xFF)]) with
          sp := 4, a := 1, x := 2, y := 3 }).runInstruction 0xa0 = .ok c
      ∧ c.a = 1 ∧ c.x = 2 ∧ c.sp = 4 ∧ c.bus.ram = (Bus.ofList [(0, 0xFF)]).ram) :=
  ⟨(loads_change_only_named_register _ 0xbd).1 (by decide),
   (loads_change_only_named_register _ 0xb6).2.1 (by decide),
   (loads_change_only_named_register _ 0xa0).2.2 (by decide)⟩

/-- C20: for every byte b and every prior flag byte, the flag byte after
`setFlagsZeroNegative(b)` is the N mask when bit 7 of b is 1 and 0 otherwise; and after every
load opcode of the dispatch the flag byte is 0 or the N mask, so every flag other than N, and
the unused bit, is clear. -/
theorem setFlagsZeroNegative_p_is_N_or_zero (cpu : CPU) (b op : Nat) :
    (cpu.setFlagsZeroNegative b).p = (if b.testBit 7 = true then Flag.N.mask else 0)
    ∧ (op ∈ CPU.handledOpcodes → ∃ c, cpu.runInstruction op = .ok c
        ∧ (c.p = 0 ∨ c.p = Flag.N.mask)
        ∧ (∀ f : Flag, f ≠ Flag.N → c.p &&& f.mask = 0)
        ∧ c.p &&& unusedMask = 0) := by
  constructor
  · rw [CPU.setFlagsZeroNegative_p]
    by_cases h : b.testBit 7 = true
    · rw [if_pos ((toByte_ge_128_iff b).2 h), if_pos h]
    · rw [if_neg (fun h2 => h ((toByte_ge_128_iff b).1 h2)), if_neg h]
  · intro hop
    obtain ⟨c, hc, hp⟩ := cpu.runInstruction_load_p op hop
    refine ⟨c, hc, hp, ?_, ?_⟩
    · intro f hf
      rcases hp with h0 | hN
      · rw [h0]; exact Nat.zero_and _
      · rw [hN]; exact Flag.N_mask_and_other f hf
    · rcases hp with h0 | hN
      · rw [h0]; exact Nat.zero_and _
      · rw [hN]; rfl

/-- Witness of C20: from P = 0xFF, `setFlagsZeroNegative(0x80)` leaves P = 0x80, and LDA
immediate (0xA9) leaves P = 0 or P = 0x80. -/
theorem setFlagsZeroNegative_p_is_N_or_zero_witness :
    ((CPU.start 0 0xFF (Bus.ofList [])).setFlagsZeroNegative 0x80).p
      = (if (0x80 : Nat).testBit 7 = true then Flag.N.mask else 0)
    ∧ ∃ c, (CPU.start 0 0xFF (Bus.ofList [])).runInstruction 0xA9 = .ok c
        ∧ (c.p = 0 ∨ c.p = Flag.N.mask)
        ∧ (∀ f : Flag, f ≠ Flag.N → c.p &&& f.mask = 0)
        ∧ c.p &&& unusedMask = 0 :=
  ⟨(setFlagsZeroNegative_p_is_N_or_zero (CPU.start 0 0xFF (Bus.ofList [])) 0x80 0xA9).1,
   (setFlagsZeroNegative_p_is_N_or_zero (CPU.start 0 0xFF (Bus.ofList [])) 0x80 0xA9).2
     (by decide)⟩

end core
